import Mathlib

/-!
Verification of the library-management CRUD service (FastAPI + MongoDB).

Shallow embedding conventions:
* Python strings are `List Char`; stored documents are pairs `Nat × Book`
  (the `Nat` plays the role of the Mongo `_id`, surfaced to clients as the
  public `id`); the collection is a `Store` holding the documents in natural
  (insertion) order together with the next fresh id.
* pydantic validation (`models.py`) is embedded as `Option`-returning
  functions: `Field(min_length, max_length)` bounds are checked on the raw
  value first (pydantic v1 runs the field's own validators before class
  `@validator`s), then the class validator runs.
* Handlers (`main.py`) are state-passing functions returning
  `Store × Except Err result` where `Err := status code × message`.
* The request path parameter `book_id` is modelled as `Option Nat`:
  `none` stands for a string rejected by `ObjectId.is_valid`, `some oid`
  for a well-formed identifier.
* MongoDB `$regex` with `$options: "i"` (used by `search_books` and the
  genre filter) is embedded for the pattern fragment these queries can
  exercise: an unanchored pattern whose characters are literals matched
  case-insensitively, except the metacharacter `.` which matches any
  character other than a newline.  The query string is passed to the
  regex engine verbatim (the code does not escape it).
-/

set_option maxRecDepth 4000

namespace LibApp

/-- Python `str.strip()` on the ASCII whitespace fragment: drop leading and
trailing whitespace characters. -/
def pyStrip (l : List Char) : List Char :=
  ((l.dropWhile Char.isWhitespace).reverse.dropWhile Char.isWhitespace).reverse

/-- Python `str.isdigit()` (ASCII fragment): non-empty and all digits. -/
def pyIsDigit (l : List Char) : Bool :=
  !l.isEmpty && l.all Char.isDigit

/-- `v.replace('-', '').replace(' ', '')` from `validate_isbn` in
`models.py`. -/
def stripISBN (v : List Char) : List Char :=
  v.filter (fun c => !(c == '-' || c == ' '))

/-- `BookBase.validate_isbn` / `BookUpdate.validate_isbn` (`models.py`,
both classes carry the identical body): strip hyphens and spaces, require
length 10 (first 9 digits, last digit or X/x via `upper() == 'X'`) or
length 13 (all digits); on success return the ORIGINAL value `v`. -/
def validate_isbn (v : List Char) : Option (List Char) :=
  if (stripISBN v).length = 10 then
    if pyIsDigit (stripISBN v).dropLast &&
        (match (stripISBN v).getLast? with
         | some c => c.isDigit || c.toUpper == 'X'
         | none => false) then some v else none
  else if (stripISBN v).length = 13 then
    if pyIsDigit (stripISBN v) then some v else none
  else none

/-- The full pydantic pipeline for the `ISBN` field (`models.py` line 9 and
line 49): `Field(min_length=10, max_length=17)` is enforced on the raw
string before the class validator `validate_isbn` runs. -/
def isbnField (v : List Char) : Option (List Char) :=
  if 10 ≤ v.length ∧ v.length ≤ 17 then validate_isbn v else none

/-- The full pydantic pipeline for `title` / `author` / `genre`
(`models.py`): `Field(min_length=1, max_length=maxLen)` on the raw string,
then `validate_strings` which rejects whitespace-only values and returns
`v.strip()`. -/
def strField (maxLen : Nat) (v : List Char) : Option (List Char) :=
  if 1 ≤ v.length ∧ v.length ≤ maxLen then
    (if (pyStrip v).isEmpty then none else some (pyStrip v))
  else none

/-- A validated book entity (the fields of `BookBase`). -/
structure Book where
  title : List Char
  author : List Char
  ISBN : List Char
  genre : List Char
  publication_year : Int
  deriving DecidableEq

/-- The raw field values of a create request, before pydantic validation. -/
structure RawBook where
  title : List Char
  author : List Char
  ISBN : List Char
  genre : List Char
  publication_year : Int
  deriving DecidableEq

/-- Parsing a create payload into a `BookCreate` model: every field must
pass its pydantic checks (`models.py`: title 1-200, author 1-100, genre
1-50, ISBN as above, `publication_year` with `ge=1000, le=2024`). -/
def parseBookCreate (r : RawBook) : Option Book :=
  match strField 200 r.title, strField 100 r.author, isbnField r.ISBN,
      strField 50 r.genre with
  | some t, some a, some i, some g =>
    if 1000 ≤ r.publication_year ∧ r.publication_year ≤ 2024 then
      some ⟨t, a, i, g, r.publication_year⟩
    else none
  | _, _, _, _ => none

/-- The `books` collection: documents in natural (insertion) order, plus
the next fresh internal id. -/
structure Store where
  books : List (Nat × Book)
  nextId : Nat
  deriving DecidableEq

/-- Store well-formedness: every stored id was assigned before `nextId`
(holds for every store built by `create_book` from the empty store). -/
def WF (s : Store) : Prop :=
  ∀ q ∈ s.books, q.1 < s.nextId

instance (s : Store) : Decidable (WF s) := by
  unfold WF; infer_instance

/-- `db.books.find_one({"_id": oid})` followed by the id/field reshaping. -/
def findById (s : Store) (oid : Nat) : Option Book :=
  (s.books.find? (fun q => q.1 == oid)).map (fun q => q.2)

/-- An error response: HTTP status code and detail message. -/
abbrev Err := Nat × String

/-- The status code of an error outcome, `none` on success. -/
def errStatus {α : Type} : Except Err α → Option Nat
  | Except.error e => some e.1
  | Except.ok _ => none

/-- `create_book` (`main.py`): pre-check `find_one({"ISBN": book.ISBN})`
on the raw ISBN string, insert, re-fetch the inserted document by its id
and return it with the public id. -/
def create_book (s : Store) (bc : Book) : Store × Except Err (Nat × Book) :=
  if s.books.any (fun q => q.2.ISBN == bc.ISBN) then
    (s, Except.error (400, "Book with this ISBN already exists"))
  else
    let oid := s.nextId
    let s' : Store := ⟨s.books ++ [(oid, bc)], oid + 1⟩
    match findById s' oid with
    | some b => (s', Except.ok (oid, b))
    | none => (s', Except.error (500, "Error creating book"))

/-- A `BookUpdate` payload after pydantic validation: `none` marks a field
absent from the request body (`dict(exclude_unset=True)` drops it). -/
structure BookUpdate where
  title : Option (List Char)
  author : Option (List Char)
  ISBN : Option (List Char)
  genre : Option (List Char)
  publication_year : Option Int
  deriving DecidableEq

/-- The effect of Mongo `$set` with the payload's present fields on one
stored document. -/
def applySet (b : Book) (p : BookUpdate) : Book :=
  ⟨p.title.getD b.title, p.author.getD b.author, p.ISBN.getD b.ISBN,
   p.genre.getD b.genre, p.publication_year.getD b.publication_year⟩

/-- `not update_data` in `update_book`: the payload sets no field. -/
def isEmptyUpdate (p : BookUpdate) : Bool :=
  p.title.isNone && p.author.isNone && p.ISBN.isNone && p.genre.isNone
    && p.publication_year.isNone

/-- `update_one({"_id": oid}, {"$set": update_data})` on the document
list. -/
def setFields (l : List (Nat × Book)) (oid : Nat) (p : BookUpdate) :
    List (Nat × Book) :=
  l.map (fun q => if q.1 == oid then (q.1, applySet q.2 p) else q)

/-- `update_book` (`main.py`), in source order: reject a malformed id
(modelled as `reqId = none`); 404 when `find_one` misses; when the payload
carries an ISBN, 400 if another document (different `_id`) holds the same
raw ISBN; 400 when the payload is empty; run `$set`; 400 when
`modified_count == 0` (the `$set` changed nothing); re-fetch and return. -/
def update_book (s : Store) (reqId : Option Nat) (p : BookUpdate) :
    Store × Except Err (Nat × Book) :=
  match reqId with
  | none => (s, Except.error (400, "Invalid book ID format"))
  | some oid =>
    match findById s oid with
    | none => (s, Except.error (404, "Book not found"))
    | some existing =>
      let isbnConflict :=
        match p.ISBN with
        | some i => s.books.any (fun q => q.2.ISBN == i && !(q.1 == oid))
        | none => false
      if isbnConflict then
        (s, Except.error (400, "Another book with this ISBN already exists"))
      else if isEmptyUpdate p then
        (s, Except.error (400, "No fields to update"))
      else
        let s' : Store := ⟨setFields s.books oid p, s.nextId⟩
        if applySet existing p = existing then
          (s', Except.error (400, "No changes made to the book"))
        else
          match findById s' oid with
          | some b => (s', Except.ok (oid, b))
          | none => (s', Except.error (500, "Error updating book"))

/-- Case-insensitive character comparison (the effect of
`$options: "i"`). -/
def chEqCI (a b : Char) : Bool :=
  a.toLower == b.toLower

/-- Anchored match of the regex pattern `p` at the start of text `t`, for
the pattern fragment in scope: `.` matches any character except a newline,
every other pattern character matches itself case-insensitively. -/
def reMatchHere : List Char → List Char → Bool
  | [], _ => true
  | _ :: _, [] => false
  | p :: ps, c :: cs =>
    ((p == '.' && !(c == '\n')) || chEqCI p c) && reMatchHere ps cs

/-- Unanchored regex search: the pattern matches at some position of the
text (MongoDB `$regex` semantics for the fragment in scope). -/
def reFind (p t : List Char) : Bool :=
  match t with
  | [] => p.isEmpty
  | _ :: cs => reMatchHere p t || reFind p cs

/-- `p` occurs at the start of `t`, comparing characters
case-insensitively. -/
def startsWithCI : List Char → List Char → Bool
  | [], _ => true
  | _ :: _, [] => false
  | p :: ps, c :: cs => chEqCI p c && startsWithCI ps cs

/-- `p` occurs in `t` as a case-insensitive substring. -/
def containsCI (p t : List Char) : Bool :=
  match t with
  | [] => p.isEmpty
  | _ :: cs => startsWithCI p t || containsCI p cs

/-- The PCRE metacharacters: a query built only from other characters is
interpreted by `$regex` as a literal string. -/
def metaChars : List Char :=
  ['\\', '^', '$', '.', '|', '?', '*', '+', '(', ')', '[', ']',
   '\x7b', '\x7d']

/-- `search_books` (`main.py`): `find` with
`$or` of `$regex`(query, `i`) on `title` and `author`, then
`.skip(skip).limit(limit)`; FastAPI guarantees `skip ≥ 0` and
`1 ≤ limit ≤ 100` before the handler runs. -/
def search_books (s : Store) (q : List Char) (skip limit : Nat) :
    List (Nat × Book) :=
  (((s.books.filter
      (fun ib => reFind q ib.2.title || reFind q ib.2.author)).drop
    skip).take limit)

/-- `filter_books` (`main.py`): Python truthiness decides whether each
parameter contributes a clause (`if genre:` treats the empty string like
an absent parameter, `if publication_year:` treats 0 like an absent
parameter); with no clause the handler raises 400 before querying the
store; the genre clause is `$regex`(genre, `i`), the year clause exact
equality. -/
def filter_books (s : Store) (genre : Option (List Char))
    (pubYear : Option Int) (skip limit : Nat) :
    Except Err (List (Nat × Book)) :=
  let gOpt : Option (List Char) :=
    match genre with
    | some g => if g.isEmpty then none else some g
    | none => none
  let yOpt : Option Int :=
    match pubYear with
    | some y => if y = 0 then none else some y
    | none => none
  match gOpt, yOpt with
  | none, none =>
    Except.error (400, "At least one filter parameter is required")
  | _, _ =>
    Except.ok ((((s.books.filter (fun ib =>
        (match gOpt with
         | some g => reFind g ib.2.genre
         | none => true) &&
        (match yOpt with
         | some y => decide (ib.2.publication_year = y)
         | none => true))).drop skip).take limit))

/-- The display name of a raw genre value in `count_books_by_genre`:
`item["_id"] if item["_id"] else "Unknown"` — both a missing genre
(`none`, Mongo groups missing/null under `_id: null`) and an empty string
are falsy and render as the sentinel. -/
def displayGenre (g : Option (List Char)) : List Char :=
  match g with
  | none => "Unknown".toList
  | some s => if s.isEmpty then "Unknown".toList else s

/-- Mongo `$group: {_id: "$genre", count: {$sum: 1}}`: one output row per
distinct raw genre value with its multiplicity ($group emits rows in an
unspecified order; this embedding fixes one). -/
def groupCounts (gs : List (Option (List Char))) :
    List (Option (List Char) × Nat) :=
  gs.dedup.map (fun g => (g, gs.count g))

/-- Mongo `$sort: {count: -1}`: stable sort by descending count (the
relative order of equal counts is unspecified by Mongo; this embedding
fixes one). -/
def sortDesc (l : List (Option (List Char) × Nat)) :
    List (Option (List Char) × Nat) :=
  l.insertionSort (fun p q => q.2 ≤ p.2)

instance : IsTotal (Option (List Char) × Nat) (fun p q => q.2 ≤ p.2) :=
  ⟨fun a b => Nat.le_total b.2 a.2⟩

instance : IsTrans (Option (List Char) × Nat) (fun p q => q.2 ≤ p.2) :=
  ⟨fun _ _ _ hab hbc => Nat.le_trans hbc hab⟩

/-- Python dict assignment `result[k] = v`: overwrite in place when the
key exists, append otherwise. -/
def dictInsert (k : List Char) (v : Nat) :
    List (List Char × Nat) → List (List Char × Nat)
  | [] => [(k, v)]
  | (k', v') :: t =>
    if k' = k then (k', v) :: t else (k', v') :: dictInsert k v t

/-- `count_books_by_genre` (`main.py`): aggregate (group, sort by count
descending), then build the response dict row by row, replacing falsy
group keys with `"Unknown"`.  The input is the list of raw genre values
of the stored documents (a document written outside the API may lack the
field, modelled as `none`). -/
def count_books_by_genre (gs : List (Option (List Char))) :
    List (List Char × Nat) :=
  (sortDesc (groupCounts gs)).foldl
    (fun acc p => dictInsert (displayGenre p.1) p.2 acc) []

/-- Number of documents whose genre displays as `name`. -/
def countDisp (gs : List (Option (List Char))) (name : List Char) : Nat :=
  gs.countP (fun g => displayGenre g == name)

/-- The result rows are in weakly descending order of count. -/
def SortedDesc (l : List (List Char × Nat)) : Prop :=
  l.Pairwise (fun p q => q.2 ≤ p.2)

/-- The claim's acceptance predicate for ISBN, written from the spec's
words alone (for comparison with `isbnField`, which embeds the code):
after removing hyphens and spaces the stripped form has length 10 with
the first 9 characters digits and the 10th a digit or X/x, or length 13
with all characters digits. -/
def claimISBNOk (v : List Char) : Bool :=
  ((stripISBN v).length == 10 &&
    ((stripISBN v).take 9).all Char.isDigit &&
    (match (stripISBN v).getLast? with
     | some c => c.isDigit || c == 'X' || c == 'x'
     | none => false))
  || ((stripISBN v).length == 13 && (stripISBN v).all Char.isDigit)

/-- The claim's acceptance predicate for the plain string fields, written
from the spec's words alone (for comparison with `strField`, which embeds
the code): the length after trimming lies within the field's range. -/
def claimStrOk (maxLen : Nat) (v : List Char) : Bool :=
  1 ≤ (pyStrip v).length && (pyStrip v).length ≤ maxLen

/-- Fixture: a fully valid book. -/
def bGatsby : Book :=
  ⟨"The Great Gatsby".toList, "F. Scott Fitzgerald".toList,
   "978-0-7432-7356-5".toList, "Fiction".toList, 1925⟩

/-- Fixture: a valid book whose title exercises the search claims. -/
def bAbc : Book :=
  ⟨"abc".toList, "John Doe".toList, "0-306-40615-2".toList,
   "Fiction".toList, 2000⟩

/-- Fixture: `bAbc` with the same ISBN written without hyphens — equal to
`bAbc.ISBN` after stripping, different as a raw string. -/
def bAbc2 : Book :=
  ⟨"abc".toList, "John Doe".toList, "0306406152".toList,
   "Fiction".toList, 2000⟩

/-- Fixture: a one-book store holding `bAbc` under id 0. -/
def store1 : Store := ⟨[(0, bAbc)], 1⟩

/-- Fixture: a one-book store holding `bGatsby` under id 0. -/
def storeG : Store := ⟨[(0, bGatsby)], 1⟩

/-- Fixture: the update payload that sets no field. -/
def emptyUpdate : BookUpdate := ⟨none, none, none, none, none⟩

/-- Fixture: the update payload that sets only the title. -/
def pXyz : BookUpdate := ⟨some ("xyz".toList), none, none, none, none⟩

/-- Fixture: `bAbc` with its title replaced by `"xyz"`. -/
def bAbcXyz : Book :=
  ⟨"xyz".toList, "John Doe".toList, "0-306-40615-2".toList,
   "Fiction".toList, 2000⟩

/-- Fixture: `store1` after the `pXyz` update of book 0. -/
def store1X : Store := ⟨[(0, bAbcXyz)], 1⟩

/-- Fixture: a raw create payload that trims to `bGatsby`. -/
def rGatsby : RawBook :=
  ⟨"  The Great Gatsby  ".toList, "F. Scott Fitzgerald".toList,
   "978-0-7432-7356-5".toList, " Fiction ".toList, 1925⟩

/-- Fixture: the genre multiset of the claim's `countByGenre` example —
Fiction three times, Sci-Fi once, one document without a genre. -/
def exGenres : List (Option (List Char)) :=
  [some ("Fiction".toList), some ("Fiction".toList),
   some ("Fiction".toList), some ("Sci-Fi".toList), none]

/-- Fixture: the claim's expected `countByGenre` result on `exGenres`. -/
def exExpected : List (List Char × Nat) :=
  [("Fiction".toList, 3), ("Sci-Fi".toList, 1), ("Unknown".toList, 1)]

section Theorems

theorem find?_setFields (l : List (Nat × Book)) (oid : Nat)
    (p : BookUpdate) :
    (setFields l oid p).find? (fun q => q.1 == oid) =
      (l.find? (fun q => q.1 == oid)).map
        (fun q => (q.1, applySet q.2 p)) := by
  induction l with
  | nil => rfl
  | cons a t ih =>
    have hstep : setFields (a :: t) oid p
        = (if a.1 == oid then (a.1, applySet a.2 p) else a)
            :: setFields t oid p := rfl
    rw [hstep]
    cases h : (a.1 == oid) with
    | true =>
      have h' : a.1 = oid := by simpa using h
      simp [List.find?, h, h', ih]
    | false =>
      have h' : ¬ a.1 = oid := by simpa using h
      simp [List.find?, h, h', ih]

theorem findById_setFields (s : Store) (oid nid : Nat) (p : BookUpdate)
    (b : Book) (h : findById s oid = some b) :
    findById ⟨setFields s.books oid p, nid⟩ oid = some (applySet b p) := by
  unfold findById at *
  cases hf : s.books.find? (fun q => q.1 == oid) with
  | none => rw [hf] at h; simp at h
  | some q =>
    rw [hf] at h
    have hb : q.2 = b := by simpa using h
    simp [find?_setFields, hf, hb]

/-- Claim C8: calling the filter handler with neither `genre` nor
`publication_year` fails with a 400 error, independently of the store
contents (no store query is issued), and never returns a result list. -/
theorem C8_filter_requires_param (s s' : Store) (skip limit : Nat) :
    filter_books s none none skip limit =
      Except.error (400, "At least one filter parameter is required") ∧
    filter_books s none none skip limit =
      filter_books s' none none skip limit := by
  constructor <;> rfl

/-- Claim C10: for a well-formed identifier that names no stored book,
`update_book` fails with the 404 "Book not found" error for EVERY
payload, the empty one included: the existence check runs before the
ISBN-conflict check and before the empty-payload check. -/
theorem C10_notFound_before_empty (s : Store) (oid : Nat) (p : BookUpdate)
    (h : findById s oid = none) :
    update_book s (some oid) p =
      (s, Except.error (404, "Book not found")) := by
  simp [update_book, h]

theorem C10_witness :
    update_book ⟨[], 0⟩ (some 0) emptyUpdate =
      (⟨[], 0⟩, Except.error (404, "Book not found")) :=
  C10_notFound_before_empty ⟨[], 0⟩ 0 emptyUpdate rfl

/-- Claim C7: when the target book exists and the payload's application
changes nothing (in particular when the payload is empty), `update_book`
fails with a 400-class error and the stored entity is unchanged. -/
theorem C7_noop_update_fails (s : Store) (oid : Nat) (p : BookUpdate)
    (b : Book) (h1 : findById s oid = some b) (h2 : applySet b p = b) :
    errStatus (update_book s (some oid) p).2 = some 400 ∧
    findById (update_book s (some oid) p).1 oid = some b := by
  have hset : findById ⟨setFields s.books oid p, s.nextId⟩ oid = some b := by
    rw [findById_setFields s oid s.nextId p b h1, h2]
  simp only [update_book, h1]
  by_cases hc :
      (match p.ISBN with
       | some i => s.books.any (fun q => q.2.ISBN == i && !(q.1 == oid))
       | none => false) = true
  · simp [hc, errStatus, h1]
  · simp only [hc]
    by_cases he : isEmptyUpdate p = true
    · simp [he, errStatus, h1]
    · simp [he, h2, errStatus, hset]

theorem C7_witness :
    errStatus (update_book store1 (some 0) emptyUpdate).2 = some 400 ∧
    findById (update_book store1 (some 0) emptyUpdate).1 0 = some bAbc :=
  C7_noop_update_fails store1 0 emptyUpdate bAbc rfl rfl

/-- Claim C6: creating a book whose raw ISBN string equals a stored one
fails with the 400 conflict error and leaves the store unchanged; the
pre-check compares the RAW strings, so whenever no stored book has the
same raw ISBN — even one equal after hyphen/space stripping — the create
succeeds. -/
theorem C6_isbn_uniqueness_raw (s : Store) (bc : Book) :
    ((∃ q ∈ s.books, q.2.ISBN = bc.ISBN) →
      create_book s bc =
        (s, Except.error (400, "Book with this ISBN already exists"))) ∧
    ((∀ q ∈ s.books, q.2.ISBN ≠ bc.ISBN) →
      errStatus (create_book s bc).2 = none) := by
  constructor
  · intro ⟨q, hq, hisbn⟩
    have hany : s.books.any (fun q => q.2.ISBN == bc.ISBN) = true := by
      rw [List.any_eq_true]
      exact ⟨q, hq, by simp [hisbn]⟩
    simp [create_book, hany]
  · intro h
    have hany : s.books.any (fun q => q.2.ISBN == bc.ISBN) = false := by
      rw [List.any_eq_false]
      intro q hq
      simpa using h q hq
    cases hf : (s.books ++ [(s.nextId, bc)]).find?
        (fun q => q.1 == s.nextId) with
    | none =>
      exfalso
      have : ((s.books ++ [(s.nextId, bc)]).find?
          (fun q => q.1 == s.nextId)).isSome := by
        rw [List.find?_isSome]
        exact ⟨(s.nextId, bc), by simp⟩
      rw [hf] at this
      simp at this
    | some q =>
      simp [create_book, hany, findById, hf, errStatus]

theorem C6_witness :
    create_book store1 bAbc =
      (store1, Except.error (400, "Book with this ISBN already exists")) ∧
    errStatus (create_book store1 bAbc2).2 = none ∧
    bAbc.ISBN ≠ bAbc2.ISBN ∧
    stripISBN bAbc.ISBN = stripISBN bAbc2.ISBN :=
  ⟨(C6_isbn_uniqueness_raw store1 bAbc).1 ⟨(0, bAbc), by decide, rfl⟩,
   (C6_isbn_uniqueness_raw store1 bAbc2).2 (by decide),
   by decide, by decide⟩

theorem char_toNat_ofNat (n : Nat) (h : n.isValidChar) :
    (Char.ofNat n).toNat = n := by
  rw [Char.ofNat, dif_pos h]
  rfl

theorem toUpper_eq_X_iff (c : Char) :
    c.toUpper = 'X' ↔ c = 'X' ∨ c = 'x' := by
  constructor
  · intro h
    simp only [Char.toUpper] at h
    split at h
    case isTrue hr =>
      right
      have hv : (c.toNat - 32).isValidChar := by
        left
        omega
      have h88 : c.toNat - 32 = 88 := by
        have h2 := congrArg Char.toNat h
        rwa [char_toNat_ofNat _ hv] at h2
      have hc : c.toNat = 120 := by omega
      calc c = Char.ofNat c.toNat := (Char.ofNat_toNat c).symm
        _ = 'x' := by rw [hc]
    case isFalse hr => exact Or.inl h
  · rintro (rfl | rfl) <;> rfl

theorem toUpper_beq_X (c : Char) :
    (c.toUpper == 'X') = (c == 'X' || c == 'x') := by
  rcases h : (c == 'X' || c == 'x') with _ | _
  · simp only [Bool.or_eq_false_iff, beq_eq_false_iff_ne] at h
    simp only [beq_eq_false_iff_ne]
    intro hu
    rcases (toUpper_eq_X_iff c).1 hu with h1 | h1
    · exact h.1 h1
    · exact h.2 h1
  · simp only [Bool.or_eq_true, beq_iff_eq] at h
    simp only [beq_iff_eq]
    exact (toUpper_eq_X_iff c).2 h

theorem length_dropWhile_le (p : Char → Bool) (l : List Char) :
    (l.dropWhile p).length ≤ l.length := by
  induction l with
  | nil => simp
  | cons a t ih =>
    by_cases h : p a = true
    · rw [List.dropWhile_cons_of_pos h]
      exact Nat.le_trans ih (Nat.le_succ _)
    · rw [List.dropWhile_cons_of_neg h]

theorem pyStrip_length_le (v : List Char) :
    (pyStrip v).length ≤ v.length := by
  unfold pyStrip
  rw [List.length_reverse]
  calc ((v.dropWhile Char.isWhitespace).reverse.dropWhile
          Char.isWhitespace).length
      ≤ (v.dropWhile Char.isWhitespace).reverse.length :=
        length_dropWhile_le _ _
    _ = (v.dropWhile Char.isWhitespace).length := List.length_reverse _
    _ ≤ v.length := length_dropWhile_le _ _

theorem validate_isbn_original (v w : List Char)
    (h : validate_isbn v = some w) : w = v := by
  unfold validate_isbn at h
  split at h
  · split at h
    · exact (Option.some.injEq _ _ ▸ h).symm
    · exact absurd h (by simp)
  · split at h
    · split at h
      · exact (Option.some.injEq _ _ ▸ h).symm
      · exact absurd h (by simp)
    · exact absurd h (by simp)

theorem isSome_ite (b : Bool) (x : List Char) :
    (if b = true then some x else none).isSome = b := by
  cases b <;> simp

theorem validate_isbn_isSome (v : List Char) :
    (validate_isbn v).isSome = claimISBNOk v := by
  by_cases h10 : (stripISBN v).length = 10
  · have hdl : (stripISBN v).dropLast = (stripISBN v).take 9 := by
      rw [List.dropLast_eq_take, h10]
    have hlen9 : ((stripISBN v).take 9).length = 9 := by
      rw [List.length_take, h10]
      decide
    have hne : ((stripISBN v).take 9).isEmpty = false := by
      rw [List.isEmpty_eq_false]
      intro hnil
      rw [hnil] at hlen9
      simp at hlen9
    unfold validate_isbn claimISBNOk
    rw [if_pos h10, hdl]
    rw [show ((stripISBN v).length == 10) = true by rw [h10]; decide]
    rw [show ((stripISBN v).length == 13) = false by rw [h10]; decide]
    rw [isSome_ite]
    simp only [Bool.true_and, Bool.false_and, Bool.or_false]
    rw [show pyIsDigit ((stripISBN v).take 9)
          = ((stripISBN v).take 9).all Char.isDigit by
        unfold pyIsDigit
        rw [hne]
        simp]
    congr 1
    cases hlast : (stripISBN v).getLast? with
    | none => rfl
    | some c =>
      show (c.isDigit || c.toUpper == 'X') = (c.isDigit || c == 'X' || c == 'x')
      rw [toUpper_beq_X, Bool.or_assoc]
  · by_cases h13 : (stripISBN v).length = 13
    · have hne : (stripISBN v).isEmpty = false := by
        rw [List.isEmpty_eq_false]
        intro hnil
        rw [hnil] at h13
        simp at h13
      unfold validate_isbn claimISBNOk
      rw [if_neg h10, if_pos h13]
      rw [show ((stripISBN v).length == 10) = false by rw [h13]; decide]
      rw [show ((stripISBN v).length == 13) = true by rw [h13]; decide]
      rw [isSome_ite]
      simp only [Bool.false_and, Bool.false_or, Bool.true_and]
      unfold pyIsDigit
      rw [hne]
      simp
    · unfold validate_isbn claimISBNOk
      rw [if_neg h10, if_neg h13]
      rw [beq_eq_false_iff_ne.mpr h10, beq_eq_false_iff_ne.mpr h13]
      simp

/-- Claim C2 counterexample: the raw string `"9-7-8-0-306-40615-7"` strips
to 13 digits, so by the claim it must be accepted, yet the code rejects it:
the pydantic `Field(max_length=17)` bound on the RAW string (19 characters
here) runs before `validate_isbn`. -/
theorem C2_counterexample :
    claimISBNOk ("9-7-8-0-306-40615-7".toList) = true ∧
    ("9-7-8-0-306-40615-7".toList).length = 19 ∧
    isbnField ("9-7-8-0-306-40615-7".toList) = none := by
  refine ⟨by rfl, by rfl, by rfl⟩

/-- Claim C2 (amended): ISBN validation accepts an input string iff the
RAW string has length between 10 and 17 AND, after removing hyphens and
spaces, the stripped form has length 10 with the first 9 characters
digits and the 10th a digit or X/x, or length 13 with all characters
digits; on acceptance the original unstripped string is the value kept
(the same `Field` bounds and validator body apply to create and update,
`models.py` lines 9/13-31 and 49/53-73). -/
theorem C2_amended (v : List Char) :
    ((isbnField v).isSome = true ↔
      (10 ≤ v.length ∧ v.length ≤ 17 ∧ claimISBNOk v = true)) ∧
    (isbnField v).getD v = v := by
  constructor
  · unfold isbnField
    by_cases hb : 10 ≤ v.length ∧ v.length ≤ 17
    · rw [if_pos hb, validate_isbn_isSome]
      constructor
      · intro h
        exact ⟨hb.1, hb.2, h⟩
      · intro h
        exact h.2.2
    · rw [if_neg hb]
      simp only [Option.isSome_none, Bool.false_eq_true, false_iff]
      intro h
      exact hb ⟨h.1, h.2.1⟩
  · unfold isbnField
    split
    · cases hval : validate_isbn v with
      | none => rfl
      | some w =>
        simp [validate_isbn_original v w hval]
    · rfl

theorem C2_witness :
    (((isbnField ("0-306-40615-2".toList)).isSome = true ↔
      (10 ≤ ("0-306-40615-2".toList).length ∧
       ("0-306-40615-2".toList).length ≤ 17 ∧
       claimISBNOk ("0-306-40615-2".toList) = true)) ∧
    (isbnField ("0-306-40615-2".toList)).getD ("0-306-40615-2".toList) =
      "0-306-40615-2".toList) ∧
    isbnField ("0-306-40615-2".toList) = some ("0-306-40615-2".toList) :=
  ⟨C2_amended ("0-306-40615-2".toList), by rfl⟩

/-- Claim C3 counterexample: a 201-character title whose trimmed form has
exactly 200 characters is, by the claim, within the 1-200 range after
trimming and must be accepted; the code rejects it because the pydantic
`Field(max_length=200)` bound applies to the RAW value before
`validate_strings` trims it. -/
theorem C3_counterexample :
    claimStrOk 200 (List.replicate 200 'a' ++ [' ']) = true ∧
    strField 200 (List.replicate 200 'a' ++ [' ']) = none := by
  refine ⟨by rfl, by rfl⟩

/-- Claim C3 (amended): validation of title / author / genre accepts a
value iff the RAW value's length is within the field's range (1-200 for
title, 1-100 for author, 1-50 for genre) and the value does not trim to
the empty string; on acceptance the trimmed value is what is kept, and
that trimmed value always has length within the field's range. -/
theorem C3_amended (m : Nat) (v w : List Char) :
    ((strField m v).isSome = true ↔
      (1 ≤ v.length ∧ v.length ≤ m ∧ (pyStrip v).isEmpty = false)) ∧
    (strField m v = some w → (w = pyStrip v ∧ 1 ≤ w.length ∧ w.length ≤ m)) := by
  constructor
  · unfold strField
    by_cases hb : 1 ≤ v.length ∧ v.length ≤ m
    · rw [if_pos hb]
      cases he : (pyStrip v).isEmpty with
      | false => simp [hb.1, hb.2]
      | true => simp [hb.1, hb.2]
    · rw [if_neg hb]
      simp only [Option.isSome_none, Bool.false_eq_true, false_iff]
      intro h
      exact hb ⟨h.1, h.2.1⟩
  · intro h
    unfold strField at h
    split at h
    case isTrue hb =>
      split at h
      case isTrue => exact absurd h (by simp)
      case isFalse hne =>
        have hw : w = pyStrip v := (Option.some.injEq _ _ ▸ h).symm
        refine ⟨hw, ?_, ?_⟩
        · rw [hw]
          have : pyStrip v ≠ [] := by
            intro hnil
            rw [hnil] at hne
            exact hne rfl
          have : (pyStrip v).length ≠ 0 := by
            intro h0
            exact this (List.eq_nil_of_length_eq_zero h0)
          omega
        · rw [hw]
          exact Nat.le_trans (pyStrip_length_le v) hb.2
    case isFalse => exact absurd h (by simp)

theorem C3_witness :
    "The Great Gatsby".toList = pyStrip ("  The Great Gatsby  ".toList) ∧
    1 ≤ ("The Great Gatsby".toList).length ∧
    ("The Great Gatsby".toList).length ≤ 200 :=
  (C3_amended 200 ("  The Great Gatsby  ".toList)
    ("The Great Gatsby".toList)).2 (by rfl)

theorem strField_some_eq (m : Nat) (v w : List Char)
    (h : strField m v = some w) : w = pyStrip v := by
  unfold strField at h
  split at h
  · split at h
    · exact absurd h (by simp)
    · exact (Option.some.injEq _ _ ▸ h).symm
  · exact absurd h (by simp)

theorem isbnField_some_eq (v w : List Char)
    (h : isbnField v = some w) : w = v := by
  unfold isbnField at h
  split at h
  · exact validate_isbn_original v w h
  · exact absurd h (by simp)

theorem find?_append_right (l : List (Nat × Book)) (n : Nat) (b : Book)
    (h : ∀ q ∈ l, q.1 ≠ n) :
    (l ++ [(n, b)]).find? (fun q => q.1 == n) = some (n, b) := by
  induction l with
  | nil => simp [List.find?]
  | cons a t ih =>
    have ha : (a.1 == n) = false :=
      beq_eq_false_iff_ne.mpr (h a (List.mem_cons_self a t))
    show List.find? (fun q => q.1 == n) (a :: (t ++ [(n, b)])) = some (n, b)
    rw [List.find?]
    rw [ha]
    exact ih (fun q hq => h q (List.mem_cons_of_mem a hq))

theorem reMatchHere_eq_startsWithCI :
    ∀ (p : List Char), (∀ c ∈ p, c ≠ '.') →
      ∀ t, reMatchHere p t = startsWithCI p t := by
  intro p
  induction p with
  | nil =>
    intro _ t
    cases t <;> rfl
  | cons a ps ih =>
    intro hp t
    cases t with
    | nil => rfl
    | cons c cs =>
      have ha : (a == '.') = false :=
        beq_eq_false_iff_ne.mpr (hp a (List.mem_cons_self a ps))
      show (((a == '.' && !(c == '\n')) || chEqCI a c) && reMatchHere ps cs)
          = (chEqCI a c && startsWithCI ps cs)
      rw [ha, Bool.false_and, Bool.false_or,
        ih (fun x hx => hp x (List.mem_cons_of_mem a hx)) cs]

theorem reFind_eq_containsCI (p : List Char) (hp : ∀ c ∈ p, c ≠ '.')
    (t : List Char) : reFind p t = containsCI p t := by
  induction t with
  | nil => rfl
  | cons c cs ih =>
    show (reMatchHere p (c :: cs) || reFind p cs)
        = (startsWithCI p (c :: cs) || containsCI p cs)
    rw [reMatchHere_eq_startsWithCI p hp, ih]

/-- Claim C1 counterexample: the query string is passed to `$regex`
unescaped, so the book titled `"abc"` is returned for the query `"a.c"`
(the `.` acts as a wildcard), although `"a.c"` is not a case-insensitive
substring of the book's title or author — contradicting the claim for
query strings containing characters that are special in regex notation. -/
theorem C1_counterexample :
    search_books store1 ("a.c".toList) 0 10 = [(0, bAbc)] ∧
    containsCI ("a.c".toList) bAbc.title = false ∧
    containsCI ("a.c".toList) bAbc.author = false := by
  refine ⟨by rfl, by rfl, by rfl⟩

/-- Claim C1 (amended): the search handler interprets the query as a
case-insensitive regular expression over title and author; for every
query containing no regex metacharacter it returns exactly the books
whose title OR author contains the query as a case-insensitive substring,
within the requested `skip`/`limit` page. -/
theorem C1_amended (s : Store) (q : List Char) (skip limit : Nat)
    (hq : ∀ c ∈ q, ¬ c ∈ metaChars) :
    search_books s q skip limit =
      (((s.books.filter (fun ib =>
          containsCI q ib.2.title || containsCI q ib.2.author)).drop
        skip).take limit) := by
  have hdot : ∀ c ∈ q, c ≠ '.' := by
    intro c hc heq
    exact hq c hc (by rw [heq]; decide)
  unfold search_books
  congr 2
  apply List.filter_congr
  intro ib _
  rw [reFind_eq_containsCI q hdot, reFind_eq_containsCI q hdot]

theorem C1_witness :
    (∀ c ∈ ("gat".toList), ¬ c ∈ metaChars) ∧
    search_books storeG ("gat".toList) 0 10 =
      (((storeG.books.filter (fun ib =>
          containsCI ("gat".toList) ib.2.title ||
          containsCI ("gat".toList) ib.2.author)).drop 0).take 10) ∧
    search_books storeG ("gat".toList) 0 10 = [(0, bGatsby)] :=
  ⟨by decide, C1_amended storeG ("gat".toList) 0 10 (by decide), by rfl⟩

/-- Claim C4: a successful partial update changes exactly the fields
present in the payload — every absent field keeps its stored value, the
id is unchanged, and fetching the id afterwards returns the entity the
update returned. -/
theorem C4_update_frame (s : Store) (oid : Nat) (p : BookUpdate)
    (s' : Store) (b b' : Book)
    (h1 : findById s oid = some b)
    (h2 : update_book s (some oid) p = (s', Except.ok (oid, b'))) :
    (p.title = none → b'.title = b.title) ∧
    (p.author = none → b'.author = b.author) ∧
    (p.ISBN = none → b'.ISBN = b.ISBN) ∧
    (p.genre = none → b'.genre = b.genre) ∧
    (p.publication_year = none →
      b'.publication_year = b.publication_year) ∧
    findById s' oid = some b' := by
  simp only [update_book, h1] at h2
  by_cases hc :
      (match p.ISBN with
       | some i => s.books.any (fun q => q.2.ISBN == i && !(q.1 == oid))
       | none => false) = true
  · rw [if_pos hc] at h2
    exact absurd h2 (by simp)
  · rw [if_neg hc] at h2
    by_cases he : isEmptyUpdate p = true
    · rw [if_pos he] at h2
      exact absurd h2 (by simp)
    · rw [if_neg he] at h2
      by_cases hn : applySet b p = b
      · rw [if_pos hn] at h2
        exact absurd h2 (by simp)
      · rw [if_neg hn] at h2
        simp only [findById_setFields s oid s.nextId p b h1,
          Prod.mk.injEq, Except.ok.injEq] at h2
        obtain ⟨hs', _, hb'⟩ := h2
        subst hb'
        refine ⟨?_, ?_, ?_, ?_, ?_, ?_⟩
        · intro h
          simp [applySet, h]
        · intro h
          simp [applySet, h]
        · intro h
          simp [applySet, h]
        · intro h
          simp [applySet, h]
        · intro h
          simp [applySet, h]
        · rw [← hs']
          exact findById_setFields s oid s.nextId p b h1

theorem C4_witness :
    (pXyz.title = none → bAbcXyz.title = bAbc.title) ∧
    (pXyz.author = none → bAbcXyz.author = bAbc.author) ∧
    (pXyz.ISBN = none → bAbcXyz.ISBN = bAbc.ISBN) ∧
    (pXyz.genre = none → bAbcXyz.genre = bAbc.genre) ∧
    (pXyz.publication_year = none →
      bAbcXyz.publication_year = bAbc.publication_year) ∧
    findById store1X 0 = some bAbcXyz :=
  C4_update_frame store1 0 pXyz store1X bAbc bAbcXyz (by rfl) (by rfl)

/-- Claim C5: for every valid create input, the created entity's string
fields equal the trimmed input (the ISBN keeps its original form) and
fetching the returned id immediately afterwards yields the identical
entity. -/
theorem C5_create_roundtrip (s : Store) (r : RawBook) (bc : Book)
    (s' : Store) (oid : Nat) (resp : Book)
    (hwf : WF s)
    (hp : parseBookCreate r = some bc)
    (hc : create_book s bc = (s', Except.ok (oid, resp))) :
    resp.title = pyStrip r.title ∧ resp.author = pyStrip r.author ∧
    resp.genre = pyStrip r.genre ∧ resp.ISBN = r.ISBN ∧
    resp.publication_year = r.publication_year ∧
    findById s' oid = some resp := by
  unfold parseBookCreate at hp
  split at hp
  case h_2 => exact absurd hp (by simp)
  case h_1 t a i g ht ha hi hg =>
    split at hp
    case isFalse => exact absurd hp (by simp)
    case isTrue hy =>
      have hbc : bc = ⟨pyStrip r.title, pyStrip r.author, r.ISBN,
          pyStrip r.genre, r.publication_year⟩ := by
        have h1 := strField_some_eq 200 r.title t ht
        have h2 := strField_some_eq 100 r.author a ha
        have h3 := isbnField_some_eq r.ISBN i hi
        have h4 := strField_some_eq 50 r.genre g hg
        have := hp
        simp only [Option.some.injEq] at this
        rw [← this, h1, h2, h3, h4]
      have hfind : findById ⟨s.books ++ [(s.nextId, bc)], s.nextId + 1⟩
          s.nextId = some bc := by
        unfold findById
        rw [show (Store.mk (s.books ++ [(s.nextId, bc)])
              (s.nextId + 1)).books = s.books ++ [(s.nextId, bc)] from rfl]
        rw [find?_append_right s.books s.nextId bc
          (fun q hq => Nat.ne_of_lt (hwf q hq))]
        rfl
      simp only [create_book] at hc
      by_cases hany : s.books.any (fun q => q.2.ISBN == bc.ISBN) = true
      · rw [if_pos hany] at hc
        exact absurd hc (by simp)
      · rw [if_neg hany] at hc
        simp only [hfind, Prod.mk.injEq, Except.ok.injEq] at hc
        obtain ⟨hs', hoid, hresp⟩ := hc
        subst hresp
        refine ⟨?_, ?_, ?_, ?_, ?_, ?_⟩
        · rw [hbc]
        · rw [hbc]
        · rw [hbc]
        · rw [hbc]
        · rw [hbc]
        · rw [← hs', ← hoid]
          exact hfind

theorem C5_witness :
    bGatsby.title = pyStrip rGatsby.title ∧
    bGatsby.author = pyStrip rGatsby.author ∧
    bGatsby.genre = pyStrip rGatsby.genre ∧
    bGatsby.ISBN = rGatsby.ISBN ∧
    bGatsby.publication_year = rGatsby.publication_year ∧
    findById storeG 0 = some bGatsby :=
  C5_create_roundtrip ⟨[], 0⟩ rGatsby bGatsby storeG 0 bGatsby
    (by decide) (by rfl) (by rfl)

theorem mem_groupCounts {gs : List (Option (List Char))}
    {g : Option (List Char)} {c : Nat} :
    (g, c) ∈ groupCounts gs ↔ (g ∈ gs ∧ c = gs.count g) := by
  unfold groupCounts
  simp only [List.mem_map, List.mem_dedup, Prod.mk.injEq]
  constructor
  · rintro ⟨x, hx, rfl, rfl⟩
    exact ⟨hx, rfl⟩
  · rintro ⟨hg, rfl⟩
    exact ⟨g, hg, rfl, rfl⟩

theorem groupCounts_keys (gs : List (Option (List Char))) :
    (groupCounts gs).map Prod.fst = gs.dedup := by
  unfold groupCounts
  rw [List.map_map]
  rw [show (Prod.fst ∘ fun g => (g, gs.count g))
        = (fun g : Option (List Char) => g) from rfl]
  exact List.map_id _

theorem displayGenre_some (s : List Char) (hs : ¬ s = []) :
    displayGenre (some s) = s := by
  show (if s.isEmpty then "Unknown".toList else s) = s
  exact if_neg (fun hc => hs (List.isEmpty_iff.mp hc))

theorem displayGenre_inj_on (g g' : Option (List Char))
    (h1 : g ≠ some []) (h1' : g' ≠ some [])
    (h2 : g ≠ some ("Unknown".toList))
    (h2' : g' ≠ some ("Unknown".toList))
    (h : displayGenre g = displayGenre g') : g = g' := by
  cases g with
  | none =>
    cases g' with
    | none => rfl
    | some s' =>
      have hs' : ¬ s' = [] := fun hh => h1' (by rw [hh])
      rw [displayGenre_some s' hs'] at h
      exact absurd (congrArg some h.symm) h2'
  | some s =>
    have hs : ¬ s = [] := fun hh => h1 (by rw [hh])
    cases g' with
    | none =>
      rw [displayGenre_some s hs] at h
      exact absurd (congrArg some h) h2
    | some s' =>
      have hs' : ¬ s' = [] := fun hh => h1' (by rw [hh])
      rw [displayGenre_some s hs, displayGenre_some s' hs'] at h
      rw [h]

theorem countDisp_eq_count (gs : List (Option (List Char)))
    (hyp : ∀ g ∈ gs, g ≠ some [] ∧ g ≠ some ("Unknown".toList))
    (g : Option (List Char))
    (hgok : g ≠ some [] ∧ g ≠ some ("Unknown".toList)) :
    countDisp gs (displayGenre g) = gs.count g := by
  unfold countDisp
  rw [List.count_eq_countP]
  apply List.countP_congr
  intro x hx
  have hxok := hyp x hx
  constructor
  · intro hd
    have : x = g := displayGenre_inj_on x g hxok.1 hgok.1 hxok.2 hgok.2
      (by simpa using hd)
    simp [this]
  · intro hd
    have : x = g := by simpa using hd
    simp [this]

theorem dictInsert_fresh (k : List Char) (v : Nat)
    (acc : List (List Char × Nat)) (h : ∀ kv ∈ acc, kv.1 ≠ k) :
    dictInsert k v acc = acc ++ [(k, v)] := by
  induction acc with
  | nil => rfl
  | cons a t ih =>
    obtain ⟨k', v'⟩ := a
    have hk : ¬ k' = k := h (k', v') (List.mem_cons_self _ t)
    show (if k' = k then (k', v) :: t else (k', v') :: dictInsert k v t)
        = ((k', v') :: t) ++ [(k, v)]
    rw [if_neg hk, ih (fun kv hkv => h kv (List.mem_cons_of_mem _ hkv))]
    rfl

theorem foldl_dictInsert_eq_map :
    ∀ (l : List (Option (List Char) × Nat)) (acc : List (List Char × Nat)),
      (∀ p ∈ l, ∀ kv ∈ acc, kv.1 ≠ displayGenre p.1) →
      l.Pairwise (fun p q => displayGenre p.1 ≠ displayGenre q.1) →
      l.foldl (fun acc p => dictInsert (displayGenre p.1) p.2 acc) acc
        = acc ++ l.map (fun p => (displayGenre p.1, p.2)) := by
  intro l
  induction l with
  | nil =>
    intro acc _ _
    simp
  | cons p l ih =>
    intro acc hfresh hpw
    obtain ⟨hhead, htail⟩ := List.pairwise_cons.mp hpw
    have hfresh' : ∀ p' ∈ l, ∀ kv ∈ acc ++ [(displayGenre p.1, p.2)],
        kv.1 ≠ displayGenre p'.1 := by
      intro p' hp' kv hkv
      rcases List.mem_append.mp hkv with hkv | hkv
      · exact hfresh p' (List.mem_cons_of_mem _ hp') kv hkv
      · have : kv = (displayGenre p.1, p.2) := by simpa using hkv
        rw [this]
        exact hhead p' hp'
    show l.foldl (fun acc p => dictInsert (displayGenre p.1) p.2 acc)
          (dictInsert (displayGenre p.1) p.2 acc)
        = acc ++ (p :: l).map (fun p => (displayGenre p.1, p.2))
    rw [dictInsert_fresh _ _ acc
      (fun kv hkv => hfresh p (List.mem_cons_self _ _) kv hkv)]
    rw [ih (acc ++ [(displayGenre p.1, p.2)]) hfresh' htail]
    simp

/-- Claim C9 counterexample: on a collection holding two books with the
literal genre `"Unknown"` and one book without a genre, the response dict
maps `"Unknown"` to 1, although two books carry that distinct genre value
(the sentinel row for the missing genre overwrites the genuine
`"Unknown"` row, so the claimed per-genre counts are not returned). -/
theorem C9_counterexample :
    count_books_by_genre
        [some ("Unknown".toList), some ("Unknown".toList), none]
      = [("Unknown".toList, 1)] ∧
    List.count (some ("Unknown".toList))
        [some ("Unknown".toList), some ("Unknown".toList), none] = 2 := by
  refine ⟨by rfl, by rfl⟩

/-- Claim C9 (amended): on the claim's example collection the handler
returns exactly `{"Fiction": 3, "Sci-Fi": 1, "Unknown": 1}` in descending
count order; and on every collection in which no stored genre is the
empty string or the literal string `"Unknown"` (so no genre collides with
the sentinel), the result maps each distinct genre value (with `"Unknown"`
standing for a missing genre) to the number of books carrying it, in
descending count order. -/
theorem C9_amended :
    count_books_by_genre exGenres = exExpected ∧
    ∀ gs : List (Option (List Char)),
      (∀ g ∈ gs, g ≠ some [] ∧ g ≠ some ("Unknown".toList)) →
      SortedDesc (count_books_by_genre gs) ∧
      ∀ (name : List Char) (c : Nat),
        ((name, c) ∈ count_books_by_genre gs ↔
          (0 < c ∧ c = countDisp gs name)) := by
  constructor
  · rfl
  · intro gs hyp
    have hmem : ∀ p ∈ sortDesc (groupCounts gs),
        p.1 ∈ gs ∧ p.2 = gs.count p.1 := by
      intro p hp
      obtain ⟨g, c⟩ := p
      have hp' : (g, c) ∈ groupCounts gs := by
        have := (List.perm_insertionSort
          (fun p q : Option (List Char) × Nat => q.2 ≤ p.2)
          (groupCounts gs)).mem_iff.mp hp
        exact this
      exact mem_groupCounts.mp hp'
    have hpwkeys : (sortDesc (groupCounts gs)).Pairwise
        (fun p q => p.1 ≠ q.1) := by
      have h1 : ((groupCounts gs).map Prod.fst).Nodup := by
        rw [groupCounts_keys]
        exact gs.nodup_dedup
      have h2 : (groupCounts gs).Pairwise (fun p q => p.1 ≠ q.1) :=
        List.pairwise_map.mp h1
      exact ((List.perm_insertionSort
        (fun p q : Option (List Char) × Nat => q.2 ≤ p.2)
        (groupCounts gs)).pairwise_iff
        (fun h e => h e.symm)).mpr h2
    have hpwdisp : (sortDesc (groupCounts gs)).Pairwise
        (fun p q => displayGenre p.1 ≠ displayGenre q.1) := by
      refine List.Pairwise.imp_of_mem ?_ hpwkeys
      intro a b ha hb hne hdeq
      have hag := (hmem a ha).1
      have hbg := (hmem b hb).1
      exact hne (displayGenre_inj_on a.1 b.1 (hyp _ hag).1 (hyp _ hbg).1
        (hyp _ hag).2 (hyp _ hbg).2 hdeq)
    have hresult : count_books_by_genre gs
        = (sortDesc (groupCounts gs)).map
            (fun p => (displayGenre p.1, p.2)) := by
      unfold count_books_by_genre
      rw [foldl_dictInsert_eq_map _ []
        (by intro p _ kv hkv; simp at hkv) hpwdisp]
      simp
    constructor
    · rw [hresult]
      unfold SortedDesc
      rw [List.pairwise_map]
      exact List.sorted_insertionSort
        (fun p q : Option (List Char) × Nat => q.2 ≤ p.2) (groupCounts gs)
    · intro name c
      rw [hresult]
      constructor
      · intro hmem'
        rw [List.mem_map] at hmem'
        obtain ⟨p, hp, heq⟩ := hmem'
        obtain ⟨g, c'⟩ := p
        obtain ⟨hg, hc'⟩ := hmem (g, c') hp
        rw [Prod.mk.injEq] at heq
        obtain ⟨hname, hcc⟩ := heq
        constructor
        · rw [← hcc, hc']
          exact List.count_pos_iff.mpr hg
        · rw [← hcc, ← hname, hc',
            countDisp_eq_count gs hyp g (hyp g hg)]
      · rintro ⟨hpos, hcd⟩
        have hpos' : 0 < gs.countP (fun g => displayGenre g == name) := by
          rw [hcd] at hpos
          exact hpos
        obtain ⟨g, hg, hgname⟩ := List.countP_pos_iff.mp hpos'
        have hname : displayGenre g = name := by simpa using hgname
        have hc : c = gs.count g := by
          rw [hcd, ← hname, countDisp_eq_count gs hyp g (hyp g hg)]
        rw [List.mem_map]
        refine ⟨(g, gs.count g), ?_, ?_⟩
        · show (g, gs.count g) ∈ sortDesc (groupCounts gs)
          unfold sortDesc
          rw [List.mem_insertionSort]
          exact mem_groupCounts.mpr ⟨hg, rfl⟩
        · rw [Prod.mk.injEq]
          exact ⟨hname, hc.symm⟩

theorem C9_witness :
    SortedDesc (count_books_by_genre exGenres) ∧
    (("Fiction".toList, 3) ∈ count_books_by_genre exGenres ↔
      (0 < 3 ∧ 3 = countDisp exGenres ("Fiction".toList))) :=
  ⟨(C9_amended.2 exGenres (by decide)).1,
   (C9_amended.2 exGenres (by decide)).2 ("Fiction".toList) 3⟩

end Theorems

end LibApp
